import Mathlib

/-!
Verification of the interactive diagram viewer of the design-patterns
catalog application: the pan/zoom viewport transform
(`components/InteractiveDiagram.tsx`), the hover/pin selection controller
with its debounced hover-clear timer (`PatternViewer`), and the code-pane
language-tab logic (`CodePane`).

Numbers are modelled as exact rationals (`ℚ`); the source uses JS doubles,
and the spec's claims are stated up to floating-point tolerance, which the
exact model settles exactly.
-/

namespace DiagramViewer

/-- The viewport transform `{ x, y, k }` of `InteractiveDiagram`:
translation `(x, y)` and uniform scale `k`. -/
structure Transform where
  x : ℚ
  y : ℚ
  k : ℚ
deriving DecidableEq

/-- The local state of `InteractiveDiagram`: the transform, the panning
flag and the pan anchor `startPoint`. -/
structure ViewportState where
  transform : Transform
  isPanning : Bool
  startPoint : ℚ × ℚ
deriving DecidableEq

/-- `useState({ x: 0, y: 0, k: 1 })`, `useState(false)`,
`useState({ x: 0, y: 0 })`. -/
def initialViewport : ViewportState :=
  { transform := { x := 0, y := 0, k := 1 }, isPanning := false, startPoint := (0, 0) }

/-- `Math.sign` on rationals. -/
def sign (q : ℚ) : ℚ :=
  if q > 0 then 1 else if q < 0 then -1 else 0

/-- A wheel event, reduced to the fields `handleWheel` reads: the cursor
position relative to the SVG (`mouseX`, `mouseY`) and the scroll delta. -/
structure WheelEvent where
  mouseX : ℚ
  mouseY : ℚ
  deltaY : ℚ
deriving DecidableEq

/-- `const scaleAmount = 0.1`. -/
def scaleAmount : ℚ := 1/10

/-- `const minScale = 0.5`. -/
def minScale : ℚ := 1/2

/-- `const maxScale = 3`. -/
def maxScale : ℚ := 3

/-- `const newScale = transform.k * (1 - Math.sign(e.deltaY) * scaleAmount)`. -/
def newScaleOf (s : ViewportState) (e : WheelEvent) : ℚ :=
  s.transform.k * (1 - sign e.deltaY * scaleAmount)

/-- `handleWheel`: computes the candidate scale; if it falls outside
`[minScale, maxScale]` the handler returns with no state change; otherwise
it recomputes the translation so that the world point under the cursor
stays under the cursor, and installs the new transform. -/
def handleWheel (s : ViewportState) (e : WheelEvent) : ViewportState :=
  if newScaleOf s e < minScale ∨ newScaleOf s e > maxScale then s
  else
    { s with transform :=
        { x := e.mouseX - (e.mouseX - s.transform.x) / s.transform.k * newScaleOf s e,
          y := e.mouseY - (e.mouseY - s.transform.y) / s.transform.k * newScaleOf s e,
          k := newScaleOf s e } }

/-- `handleMouseDown`: when the press lands on the diagram background,
enter panning mode and record the anchor offset `client - translation`. -/
def handleMouseDown (s : ViewportState) (onBackground : Bool) (clientX clientY : ℚ) :
    ViewportState :=
  if onBackground then
    { s with isPanning := true,
             startPoint := (clientX - s.transform.x, clientY - s.transform.y) }
  else s

/-- `handleMouseMove`: a no-op unless panning; otherwise the translation
becomes `client - startPoint`, scale untouched. -/
def handleMouseMove (s : ViewportState) (clientX clientY : ℚ) : ViewportState :=
  if s.isPanning then
    { s with transform :=
        { s.transform with x := clientX - s.startPoint.1, y := clientY - s.startPoint.2 } }
  else s

/-- `handleMouseUp` (also wired to mouse-leave): unconditionally exit
panning mode. -/
def handleMouseUp (s : ViewportState) : ViewportState :=
  { s with isPanning := false }

/-- The zoom-bounds invariant on the scale component. -/
def scaleInBounds (s : ViewportState) : Prop :=
  minScale ≤ s.transform.k ∧ s.transform.k ≤ maxScale

instance (s : ViewportState) : Decidable (scaleInBounds s) := by
  unfold scaleInBounds; infer_instance

/-- A single wheel step preserves the scale bounds. -/
theorem handleWheel_preserves_bounds (s : ViewportState) (e : WheelEvent)
    (h : scaleInBounds s) : scaleInBounds (handleWheel s e) := by
  unfold handleWheel
  split
  · exact h
  · rename_i hout
    push_neg at hout
    exact ⟨hout.1, hout.2⟩

/-- C1: starting from the initial transform (scale 1), every sequence of
zoom operations keeps the scale in `[0.5, 3.0]`; and any single zoom call
whose candidate scale falls outside `[0.5, 3.0]` returns the entire state
(transform included) unchanged — reject-and-no-op, no clamping. -/
theorem zoom_bounds_invariant :
    (∀ evs : List WheelEvent, scaleInBounds (evs.foldl handleWheel initialViewport)) ∧
    (∀ (s : ViewportState) (e : WheelEvent),
      newScaleOf s e < minScale ∨ newScaleOf s e > maxScale → handleWheel s e = s) := by
  constructor
  · have hgen : ∀ (evs : List WheelEvent) (s : ViewportState), scaleInBounds s →
        scaleInBounds (evs.foldl handleWheel s) := by
      intro evs
      induction evs with
      | nil => intro s hs; exact hs
      | cons e rest ih =>
        intro s hs
        exact ih _ (handleWheel_preserves_bounds s e hs)
    intro evs
    refine hgen evs initialViewport ?_
    constructor <;> norm_num [initialViewport, minScale, maxScale]
  · intro s e h
    unfold handleWheel
    exact if_pos h

/-- Witness for C1's rejection branch: at scale `1/2`, a zoom-out step has
candidate scale `9/20 < 1/2`, and the state is returned unchanged. -/
theorem zoom_bounds_invariant_witness :
    handleWheel ⟨⟨0, 0, 1/2⟩, false, (0, 0)⟩ ⟨0, 0, 1⟩ = ⟨⟨0, 0, 1/2⟩, false, (0, 0)⟩ :=
  zoom_bounds_invariant.2 ⟨⟨0, 0, 1/2⟩, false, (0, 0)⟩ ⟨0, 0, 1⟩
    (Or.inl (by norm_num [newScaleOf, sign, scaleAmount, minScale]))

/-- C2: after a successful zoom (candidate scale within bounds), the
world-space coordinate that the old transform put under the cursor,
`(mouse - translation) / k`, is mapped back to the cursor by the new
transform: `world * k_new + translation_new = mouse`, exactly, in both
axes. -/
theorem zoom_to_cursor (s : ViewportState) (e : WheelEvent)
    (hin : minScale ≤ newScaleOf s e ∧ newScaleOf s e ≤ maxScale) :
    (e.mouseX - s.transform.x) / s.transform.k * (handleWheel s e).transform.k
        + (handleWheel s e).transform.x = e.mouseX ∧
    (e.mouseY - s.transform.y) / s.transform.k * (handleWheel s e).transform.k
        + (handleWheel s e).transform.y = e.mouseY := by
  unfold handleWheel
  rw [if_neg]
  · constructor <;> ring
  · rintro (h | h)
    · exact absurd hin.1 (not_le_of_lt h)
    · exact absurd hin.2 (not_le_of_lt h)

/-- Witness for C2 at the initial transform and a zoom-in at `(100, 100)`. -/
theorem zoom_to_cursor_witness :
    ((100 : ℚ) - initialViewport.transform.x) / initialViewport.transform.k *
        (handleWheel initialViewport ⟨100, 100, -1⟩).transform.k
        + (handleWheel initialViewport ⟨100, 100, -1⟩).transform.x = 100 ∧
    ((100 : ℚ) - initialViewport.transform.y) / initialViewport.transform.k *
        (handleWheel initialViewport ⟨100, 100, -1⟩).transform.k
        + (handleWheel initialViewport ⟨100, 100, -1⟩).transform.y = 100 :=
  zoom_to_cursor initialViewport ⟨100, 100, -1⟩
    (by norm_num [newScaleOf, sign, scaleAmount, minScale, maxScale, initialViewport])

/-- C8: from `{x:0, y:0, k:1}`, one zoom-in step at screen point
`(100, 100)` (10% step) yields exactly `{x:-10, y:-10, k:1.1}`, and the
world point `(100, 100)` still renders at screen `(100, 100)` under the
new transform. -/
theorem zoom_in_scenario :
    handleWheel initialViewport ⟨100, 100, -1⟩ =
      { transform := { x := -10, y := -10, k := 11/10 }, isPanning := false,
        startPoint := (0, 0) } ∧
    (100 : ℚ) * (handleWheel initialViewport ⟨100, 100, -1⟩).transform.k
        + (handleWheel initialViewport ⟨100, 100, -1⟩).transform.x = 100 := by
  constructor <;>
    norm_num [handleWheel, newScaleOf, sign, scaleAmount, minScale, maxScale, initialViewport]

/-- C9: `endPan` (the mouse-up handler) is idempotent, and after it any
sequence of `continuePan` (mouse-move) calls leaves the state unchanged,
until a new `beginPan` re-enters panning mode. -/
theorem endPan_idempotent :
    (∀ s : ViewportState, handleMouseUp (handleMouseUp s) = handleMouseUp s) ∧
    (∀ (s : ViewportState) (moves : List (ℚ × ℚ)),
      moves.foldl (fun st p => handleMouseMove st p.1 p.2) (handleMouseUp s)
        = handleMouseUp s) := by
  constructor
  · intro s; rfl
  · intro s moves
    have hstep : ∀ p : ℚ × ℚ, handleMouseMove (handleMouseUp s) p.1 p.2 = handleMouseUp s := by
      intro p
      simp [handleMouseMove, handleMouseUp]
    induction moves with
    | nil => rfl
    | cons p rest ih => rw [List.foldl_cons, hstep p]; exact ih

end DiagramViewer

namespace SelectionController

/-- A diagram component, reduced to the fields the selection controller
and the code pane read: the stable identifier, the display label, and the
language-tag → snippet mapping (an insertion-ordered record, modelled as
an association list, matching JS string-keyed object iteration order). -/
structure DiagramComponent where
  id : String
  label : String
  code : List (String × String)
deriving DecidableEq

/-- State of `PatternViewer`: hovered and pinned component, plus the
hover-clear timer machinery. `hoverTimeoutRef` models
`hoverTimeoutRef.current` (the id last stored in the ref);
`armedTimers` is the set of scheduled-but-unfired timeout callbacks in
the runtime, and `nextTimerId` generates fresh timer ids. -/
structure PVState where
  hoveredComponent : Option DiagramComponent
  pinnedComponent : Option DiagramComponent
  hoverTimeoutRef : Option Nat
  armedTimers : List Nat
  nextTimerId : Nat
deriving DecidableEq

/-- Initial `PatternViewer` state: nothing hovered, nothing pinned, no
timer. -/
def initialPV : PVState :=
  { hoveredComponent := none, pinnedComponent := none, hoverTimeoutRef := none,
    armedTimers := [], nextTimerId := 0 }

/-- `clearHoverTimeout`: if the ref holds a timer id, `clearTimeout` it
(disarm it in the runtime) and null the ref; `clearTimeout` on an
already-fired id is a no-op, which `List.erase` of an absent element
models. -/
def clearHoverTimeout (s : PVState) : PVState :=
  match s.hoverTimeoutRef with
  | some tid => { s with armedTimers := s.armedTimers.erase tid, hoverTimeoutRef := none }
  | none => s

/-- `handleHoverComponent`: always clears any pending hover-clear timer
first; on enter (`some c`) sets the hovered component immediately; on
leave (`null`) arms a fresh 200 ms timer whose callback will clear the
hovered component, storing its id in the ref. -/
def handleHoverComponent (s : PVState) (component : Option DiagramComponent) : PVState :=
  let s0 := clearHoverTimeout s
  match component with
  | some c => { s0 with hoveredComponent := some c }
  | none =>
    { s0 with armedTimers := s0.armedTimers ++ [s0.nextTimerId],
              hoverTimeoutRef := some s0.nextTimerId,
              nextTimerId := s0.nextTimerId + 1 }

/-- The runtime fires timer `tid`: only possible while `tid` is armed;
the callback sets the hovered component to `null`. (The ref is not
nulled by the callback — the stale id stays in the ref, and a later
`clearTimeout` on it is a no-op.) -/
def fireTimer (s : PVState) (tid : Nat) : PVState :=
  if tid ∈ s.armedTimers then
    { s with hoveredComponent := none, armedTimers := s.armedTimers.erase tid }
  else s

/-- `handlePinComponent`: clears any pending hover-clear timer, then
toggles — if the previously pinned component has the same id, un-pin,
else pin the given component. -/
def handlePinComponent (s : PVState) (component : DiagramComponent) : PVState :=
  let s0 := clearHoverTimeout s
  { s0 with pinnedComponent :=
      match s0.pinnedComponent with
      | some prev => if prev.id = component.id then none else some component
      | none => some component }

/-- `handleClosePane`: explicit unpin. -/
def handleClosePane (s : PVState) : PVState :=
  { s with pinnedComponent := none }

/-- `const componentToShow = pinnedComponent || hoveredComponent` —
components are objects, always truthy, so this is option-orElse. -/
def componentToShow (s : PVState) : Option DiagramComponent :=
  s.pinnedComponent.orElse (fun _ => s.hoveredComponent)

/-- The events that drive `PatternViewer`'s selection state. -/
inductive PVEvent where
  | hover : Option DiagramComponent → PVEvent
  | pin : DiagramComponent → PVEvent
  | closePane : PVEvent
  | timer : Nat → PVEvent

/-- One event step. -/
def stepPV (s : PVState) : PVEvent → PVState
  | .hover c => handleHoverComponent s c
  | .pin c => handlePinComponent s c
  | .closePane => handleClosePane s
  | .timer tid => fireTimer s tid

/-- The single-slot timer invariant: either no timer is armed, or exactly
one is and the ref points at it. -/
def timerInv (s : PVState) : Prop :=
  match s.armedTimers with
  | [] => True
  | [t] => s.hoverTimeoutRef = some t
  | _ => False

instance (s : PVState) : Decidable (timerInv s) := by
  unfold timerInv
  rcases s.armedTimers with _ | ⟨t, _ | _⟩ <;> infer_instance

/-- The invariant, unfolded: no armed timer, or exactly one which the ref
holds. -/
theorem timerInv_cases (s : PVState) (h : timerInv s) :
    s.armedTimers = [] ∨ ∃ t, s.armedTimers = [t] ∧ s.hoverTimeoutRef = some t := by
  unfold timerInv at h
  rcases ha : s.armedTimers with _ | ⟨t, _ | ⟨t2, rest⟩⟩ <;> rw [ha] at h
  · exact Or.inl rfl
  · exact Or.inr ⟨t, rfl, h⟩
  · exact absurd h (by simp)

/-- A state with no armed timer satisfies the invariant. -/
theorem timerInv_of_armed_nil (s : PVState) (h : s.armedTimers = []) : timerInv s := by
  unfold timerInv
  rw [h]
  trivial

/-- A state with exactly one armed timer, held by the ref, satisfies the
invariant. -/
theorem timerInv_of_single (s : PVState) (t : Nat) (ha : s.armedTimers = [t])
    (hr : s.hoverTimeoutRef = some t) : timerInv s := by
  unfold timerInv
  rw [ha]
  exact hr

/-- Under the invariant, clearing the hover timeout disarms everything. -/
theorem clearHoverTimeout_armed (s : PVState) (h : timerInv s) :
    (clearHoverTimeout s).armedTimers = [] := by
  rcases timerInv_cases s h with ha | ⟨t, ha, hr⟩
  · unfold clearHoverTimeout
    rcases hr : s.hoverTimeoutRef with _ | tid
    · exact ha
    · show s.armedTimers.erase tid = []
      rw [ha]
      rfl
  · unfold clearHoverTimeout
    rw [hr]
    show s.armedTimers.erase t = []
    rw [ha]
    simp

/-- `clearHoverTimeout` touches only the timer fields. -/
theorem clearHoverTimeout_frame (s : PVState) :
    (clearHoverTimeout s).hoveredComponent = s.hoveredComponent ∧
    (clearHoverTimeout s).pinnedComponent = s.pinnedComponent ∧
    (clearHoverTimeout s).nextTimerId = s.nextTimerId := by
  unfold clearHoverTimeout
  rcases s.hoverTimeoutRef with _ | tid <;> exact ⟨rfl, rfl, rfl⟩

/-- Each event preserves the single-slot timer invariant. -/
theorem stepPV_preserves_inv (s : PVState) (ev : PVEvent) (h : timerInv s) :
    timerInv (stepPV s ev) := by
  have hclear := clearHoverTimeout_armed s h
  cases ev with
  | hover c =>
    cases c with
    | some c =>
      exact timerInv_of_armed_nil _ hclear
    | none =>
      refine timerInv_of_single _ ((clearHoverTimeout s).nextTimerId) ?_ rfl
      show (clearHoverTimeout s).armedTimers ++ [(clearHoverTimeout s).nextTimerId] = _
      rw [hclear]
      rfl
  | pin c =>
    exact timerInv_of_armed_nil _ hclear
  | closePane =>
    exact h
  | timer tid =>
    show timerInv (fireTimer s tid)
    unfold fireTimer
    split
    · rename_i hmem
      rcases timerInv_cases s h with ha | ⟨t, ha, hr⟩
      · rw [ha] at hmem
        exact absurd hmem (by simp)
      · refine timerInv_of_armed_nil _ ?_
        show s.armedTimers.erase tid = []
        rw [ha] at hmem ⊢
        simp only [List.mem_singleton] at hmem
        subst hmem
        simp
    · exact h

/-- The invariant holds in every reachable state. -/
theorem reachable_inv (evs : List PVEvent) : timerInv (evs.foldl stepPV initialPV) := by
  have hgen : ∀ (evs : List PVEvent) (s : PVState), timerInv s →
      timerInv (evs.foldl stepPV s) := by
    intro evs
    induction evs with
    | nil => intro s hs; exact hs
    | cons ev rest ih => intro s hs; exact ih _ (stepPV_preserves_inv s ev hs)
  exact hgen evs initialPV trivial

/-- Sample components for concrete instances. -/
def compA : DiagramComponent := ⟨"a", "A", []⟩

/-- A second sample component. -/
def compB : DiagramComponent := ⟨"b", "B", []⟩

/-- A component whose id belongs to no diagram used below. -/
def ghostComponent : DiagramComponent := ⟨"ghost", "Ghost", []⟩

/-- A sample diagram component list. -/
def sampleDiagram : List DiagramComponent := [compA, compB]

/-- How `handlePinComponent` transforms the pinned component, stated over
the pre-state (clearing the hover timeout does not touch the pin). -/
theorem handlePinComponent_pinned (s : PVState) (X : DiagramComponent) :
    (handlePinComponent s X).pinnedComponent =
      match s.pinnedComponent with
      | some prev => if prev.id = X.id then none else some X
      | none => some X := by
  show (match (clearHoverTimeout s).pinnedComponent with
        | some prev => if prev.id = X.id then none else some X
        | none => some X) = _
  rw [(clearHoverTimeout_frame s).2.1]

/-- C3: the active component equals the pinned component whenever one is
pinned, regardless of the hovered component; with no pin it equals the
hovered component (and is none when neither is set). -/
theorem selection_precedence (s : PVState) :
    (∀ c, s.pinnedComponent = some c → componentToShow s = some c) ∧
    (s.pinnedComponent = none → componentToShow s = s.hoveredComponent) := by
  constructor
  · intro c hc
    unfold componentToShow
    rw [hc]
    rfl
  · intro hn
    unfold componentToShow
    rw [hn]
    rfl

/-- A state with `compA` pinned and `compB` hovered. -/
def pinnedHoveredState : PVState :=
  { initialPV with hoveredComponent := some compB, pinnedComponent := some compA }

/-- Witness for C3: with `compA` pinned and `compB` hovered, the active
component is `compA`. -/
theorem selection_precedence_witness :
    componentToShow pinnedHoveredState = some compA :=
  (selection_precedence _).1 compA rfl

/-- C4 counterexample: when `compA` is already pinned, `togglePin(compA)`
twice re-pins it — the state ends with `compA` pinned, not with no pin,
refuting the unconditional "idempotent pair" reading. -/
theorem togglePin_pair_counterexample :
    (handlePinComponent (handlePinComponent
        { initialPV with pinnedComponent := some compA } compA) compA).pinnedComponent
      = some compA := by
  decide

/-- C4 (amended): `togglePin(X)` un-pins when the pinned component has
`X`'s id and pins `X` otherwise; the pair `togglePin(X); togglePin(X)`
ends with no pin provided `X` was not already the pinned component. -/
theorem togglePin_toggle (s : PVState) (X : DiagramComponent) :
    (∀ p, s.pinnedComponent = some p → p.id = X.id →
        (handlePinComponent s X).pinnedComponent = none) ∧
    ((∀ p, s.pinnedComponent = some p → p.id ≠ X.id) →
        (handlePinComponent s X).pinnedComponent = some X) ∧
    ((∀ p, s.pinnedComponent = some p → p.id ≠ X.id) →
        (handlePinComponent (handlePinComponent s X) X).pinnedComponent = none) := by
  have hfst : (∀ p, s.pinnedComponent = some p → p.id ≠ X.id) →
      (handlePinComponent s X).pinnedComponent = some X := by
    intro hne
    rw [handlePinComponent_pinned]
    rcases hp : s.pinnedComponent with _ | p
    · rfl
    · simp [hne p hp]
  refine ⟨?_, hfst, ?_⟩
  · intro p hp hid
    rw [handlePinComponent_pinned, hp]
    simp [hid]
  · intro hne
    rw [handlePinComponent_pinned, hfst hne]
    simp

/-- Witness for C4's amended claim: from the initial state (nothing
pinned), toggling `compA` twice ends with no pin. -/
theorem togglePin_toggle_witness :
    (handlePinComponent (handlePinComponent initialPV compA) compA).pinnedComponent = none :=
  (togglePin_toggle initialPV compA).2.2 (fun p hp => by simp [initialPV] at hp)

/-- C5: in every reachable state at most one hover-clear timer is
pending; and from any state satisfying the single-slot invariant,
`hoverLeave()` then `hoverEnter(Y)` before the timer fires leaves `Y`
hovered with no armed timer, so the earlier timer can never fire (firing
any timer id is a no-op). -/
theorem debounce_single_slot :
    (∀ evs : List PVEvent, (evs.foldl stepPV initialPV).armedTimers.length ≤ 1) ∧
    (∀ (s : PVState) (Y : DiagramComponent), timerInv s →
      (handleHoverComponent (handleHoverComponent s none) (some Y)).hoveredComponent
          = some Y ∧
      (handleHoverComponent (handleHoverComponent s none) (some Y)).armedTimers = [] ∧
      ∀ tid, fireTimer (handleHoverComponent (handleHoverComponent s none) (some Y)) tid
          = handleHoverComponent (handleHoverComponent s none) (some Y)) := by
  constructor
  · intro evs
    rcases timerInv_cases _ (reachable_inv evs) with ha | ⟨t, ha, _⟩ <;> rw [ha] <;> simp
  · intro s Y hs
    have hs1 : timerInv (handleHoverComponent s none) :=
      stepPV_preserves_inv s (.hover none) hs
    have harm : (handleHoverComponent (handleHoverComponent s none) (some Y)).armedTimers
        = [] := clearHoverTimeout_armed _ hs1
    refine ⟨rfl, harm, ?_⟩
    intro tid
    unfold fireTimer
    rw [harm]
    simp

/-- Witness for C5: from the initial state, hover-leave then hover-enter
of `compB` leaves `compB` hovered. -/
theorem debounce_single_slot_witness :
    (handleHoverComponent (handleHoverComponent initialPV none) (some compB)).hoveredComponent
      = some compB :=
  (debounce_single_slot.2 initialPV compB trivial).1

/-- C6 counterexample: hovering a component whose id is not in the
diagram's component list still makes it the active component — the code
performs no membership lookup and shows the foreign component, not the
empty/placeholder state the claim requires. -/
theorem hover_foreign_component_counterexample :
    ghostComponent.id ∉ sampleDiagram.map DiagramComponent.id ∧
    componentToShow (handleHoverComponent initialPV (some ghostComponent))
      = some ghostComponent := by
  constructor
  · decide
  · rfl

/-- C6 (amended): the handlers receive the component value itself, never
an id to resolve, so a dangling-id case cannot arise and nothing raises:
any hovered component becomes the hovered state and (absent a pin) the
active component, and the placeholder state shows exactly when neither
hover nor pin is set. -/
theorem hover_pin_no_membership_check (s : PVState) (c : DiagramComponent) :
    (handleHoverComponent s (some c)).hoveredComponent = some c ∧
    (s.pinnedComponent = none →
      componentToShow (handleHoverComponent s (some c)) = some c) ∧
    (componentToShow s = none ↔ s.pinnedComponent = none ∧ s.hoveredComponent = none) := by
  refine ⟨rfl, ?_, ?_⟩
  · intro hn
    unfold componentToShow
    have hp : (handleHoverComponent s (some c)).pinnedComponent = none := by
      show (clearHoverTimeout s).pinnedComponent = none
      rw [(clearHoverTimeout_frame s).2.1, hn]
    rw [hp]
    rfl
  · unfold componentToShow
    rcases s.pinnedComponent with _ | p <;> rcases hh : s.hoveredComponent with _ | c0 <;>
      simp [Option.orElse]

/-- Witness for C6's amended claim at a concrete input. -/
theorem hover_pin_no_membership_check_witness :
    componentToShow (handleHoverComponent initialPV (some compA)) = some compA :=
  (hover_pin_no_membership_check initialPV compA).2.1 rfl

/-- C10: `togglePin` and `clearPin` never modify the hovered component,
and when a `togglePin` results in no pin the previously hovered
component (if any) is the active component again. -/
theorem pin_preserves_hover (s : PVState) (X : DiagramComponent) :
    (handlePinComponent s X).hoveredComponent = s.hoveredComponent ∧
    (handleClosePane s).hoveredComponent = s.hoveredComponent ∧
    ((handlePinComponent s X).pinnedComponent = none →
      componentToShow (handlePinComponent s X) = s.hoveredComponent) := by
  refine ⟨(clearHoverTimeout_frame s).1, rfl, ?_⟩
  · intro hnone
    unfold componentToShow
    rw [hnone]
    show (clearHoverTimeout s).hoveredComponent = s.hoveredComponent
    exact (clearHoverTimeout_frame s).1

/-- Witness for C10: un-pinning `compA` while `compB` is hovered makes
`compB` active again. -/
theorem pin_preserves_hover_witness :
    componentToShow (handlePinComponent pinnedHoveredState compA) = some compB :=
  (pin_preserves_hover _ compA).2.2 (by decide)

end SelectionController

namespace CodePane

open SelectionController

/-- `const availableLanguages = Object.keys(component.code)` — the keys
of the code mapping, in insertion order. -/
def availableLanguages (component : DiagramComponent) : List String :=
  component.code.map Prod.fst

/-- The initial `selectedLanguage` state:
`availableLanguages.includes('java') ? 'java' : availableLanguages[0] || ''`. -/
def initialSelectedLanguage (component : DiagramComponent) : String :=
  if (availableLanguages component).contains "java" then "java"
  else ((availableLanguages component).head?).getD ""

/-- `const hasCode = availableLanguages.length > 0 && selectedLanguage` —
a non-empty string is truthy. -/
def hasCode (component : DiagramComponent) (selectedLanguage : String) : Bool :=
  decide ((availableLanguages component).length > 0) && decide (selectedLanguage ≠ "")

/-- `component.code[lang]` — string-keyed record lookup. -/
def lookupCode (component : DiagramComponent) (lang : String) : Option String :=
  (component.code.find? (fun p => p.1 == lang)).map Prod.snd

/-- The `languageMap` display-name table. -/
def languageMap (lang : String) : Option String :=
  (([("java", "Java"), ("python", "Python"),
     ("javascript", "JavaScript")] : List (String × String)).find?
    (fun p => p.1 == lang)).map Prod.snd

/-- What the snippet area of the pane renders. -/
inductive PaneBody where
  | snippet : String → PaneBody
  | noSnippetMessage : PaneBody
deriving DecidableEq

/-- The snippet area: when `hasCode`, the highlighter receives
`component.code[selectedLanguage]?.trim() ?? fallback`; otherwise the
pane shows the "No code snippet available for this component."
placeholder. -/
def paneBody (component : DiagramComponent) (selectedLanguage : String) : PaneBody :=
  if hasCode component selectedLanguage then
    .snippet (((lookupCode component selectedLanguage).map String.trim).getD
      ("// Code for " ++ ((languageMap selectedLanguage).getD "undefined")
        ++ " not available."))
  else .noSnippetMessage

/-- C7: the available language tags are exactly the keys of the code
mapping; the default selection is `java` when it is a key, else the first
key in iteration order; an empty mapping yields the no-snippet
placeholder instead of a failure. -/
theorem code_pane_languages (component : DiagramComponent) :
    (∀ lang, lang ∈ availableLanguages component ↔ ∃ snip, (lang, snip) ∈ component.code) ∧
    ("java" ∈ availableLanguages component → initialSelectedLanguage component = "java") ∧
    (∀ l ls, "java" ∉ availableLanguages component →
      availableLanguages component = l :: ls → initialSelectedLanguage component = l) ∧
    (component.code = [] →
      paneBody component (initialSelectedLanguage component) = .noSnippetMessage) := by
  refine ⟨?_, ?_, ?_, ?_⟩
  · intro lang
    unfold availableLanguages
    rw [List.mem_map]
    constructor
    · rintro ⟨⟨l, snip⟩, hmem, rfl⟩
      exact ⟨snip, hmem⟩
    · rintro ⟨snip, hmem⟩
      exact ⟨(lang, snip), hmem, rfl⟩
  · intro h
    unfold initialSelectedLanguage
    rw [if_pos]
    simpa [List.contains, List.elem_iff] using h
  · intro l ls hnot heq
    unfold initialSelectedLanguage
    rw [if_neg, heq]
    · rfl
    · simpa [List.contains, List.elem_iff] using hnot
  · intro h
    unfold paneBody hasCode availableLanguages
    rw [h]
    simp

/-- A component with a two-language code mapping, `java` second. -/
def sampleComponent : DiagramComponent := ⟨"x", "X", [("python", "p"), ("java", "j")]⟩

/-- Witness for C7: `sampleComponent` has `java` among its tags, so the
default selection is `java`. -/
theorem code_pane_languages_witness :
    initialSelectedLanguage sampleComponent = "java" :=
  (code_pane_languages sampleComponent).2.1 (by decide)

end CodePane
